import Mathlib

/-!
Verification of the jmt translation engine (`src/jmt/__main__.py`):
a shallow embedding of the functions that translate a treefmt-style
formatter configuration into a jj-fix configuration, together with
theorems about the pattern resolver, the command synthesizer, the
wrapper-script generator and the serializer.
-/

namespace Jmt

/-- `EXCLUDED_TOOLS`: tools completely excluded from jj fix (empty in the source). -/
def EXCLUDED_TOOLS : List String := []

/-- `PASSTHROUGH_LINTERS`: linters that show warnings via pass-through. -/
def PASSTHROUGH_LINTERS : List String := ["shellcheck", "statix"]

/-- `STDIN_ARGS`: tools that need special stdin arguments, keyed by command basename. -/
def STDIN_ARGS : List (String × List String) :=
  [("yamlfmt", ["-"]),
   ("keep-sorted", ["-"]),
   ("tofu", ["-"]),
   ("terraform", ["-"]),
   ("prettier", ["--stdin-filepath=$path"]),
   ("taplo", ["-"]),
   ("ruff", ["--stdin-filename=input.py"]),
   ("mdformat", ["-"]),
   ("shfmt", ["-"]),
   ("typstyle", [])]

/-- `NEEDS_WRAPPER`: tools that need wrapper scripts (no stdin support, but modify files). -/
def NEEDS_WRAPPER : List String := ["deadnix", "ruff-isort", "ruff-check"]

/-- `INPLACE_SHORT_FLAG`: tools where -i means inplace (not indent). -/
def INPLACE_SHORT_FLAG : List String := ["typstyle"]

/-- `ext_map` from `get_inline_command`: temp-file extension per tool name. -/
def ext_map : List (String × String) :=
  [("deadnix", ".nix"),
   ("statix", ".nix"),
   ("shellcheck", ".sh"),
   ("ruff-isort", ".py"),
   ("ruff-check", ".py")]

/-- Splits a character list at the slash separator (helper for `pathName`). -/
def splitOnSlash : List Char → List (List Char)
  | [] => [[]]
  | c :: cs =>
    let r := splitOnSlash cs
    if c = '/' then [] :: r
    else
      match r with
      | [] => [[c]]
      | h :: t => (c :: h) :: t

/-- Models Python `Path(s).name`: the last path component, where empty components
and `.` components are dropped during path parsing; empty when no component remains. -/
def pathName (s : String) : String :=
  let comps := (splitOnSlash s.data).filter (fun c => !(c == []) && !(c == ['.']))
  match comps.getLast? with
  | some c => String.mk c
  | none => ""

/-- Models Python `s.startswith(p)` as a list-prefix test on the characters. -/
def str_startswith (s p : String) : Bool := p.data.isPrefixOf s.data

/-- Models Python `sep.join(items)`. -/
def join_sep (sep : String) : List String → String
  | [] => ""
  | [x] => x
  | x :: y :: ys => x ++ sep ++ join_sep sep (y :: ys)

/-- `glob_to_jj_pattern`: convert a treefmt include pattern to a jj fix glob pattern. -/
def glob_to_jj_pattern (pattern : String) : String :=
  if str_startswith pattern "**/" then "glob:'" ++ pattern ++ "'"
  else if str_startswith pattern "*." then "glob:'**/" ++ pattern ++ "'"
  else "glob:'" ++ pattern ++ "'"

/-- Option filter used inside `get_inline_command`:
`[opt for opt in options if opt not in ["-w", "--write"]]`. -/
def inline_filtered (options : List String) : List String :=
  options.filter (fun opt => opt ∉ (["-w", "--write"] : List String))

/-- `get_inline_command`: generate the inline `bash -c` command for tools that need
wrapping.  `mode` is `"edit"` (modify file) or `"passthrough"` (show warnings only).
The source reads the temp-file command from the `JMT_MKTEMP` environment variable
with default `"mktemp"`; that environment lookup is modelled as the explicit
`mktemp_cmd` parameter. -/
def get_inline_command (mktemp_cmd name command : String) (options : List String)
    (mode : String) : List String :=
  let filtered_opts := inline_filtered options
  let opts_str := join_sep " " (filtered_opts.map (fun opt => "\"" ++ opt ++ "\""))
  let ext := match ext_map.lookup name with
    | some e => e
    | none => ""
  let script :=
    if mode = "passthrough" then
      -- Linter: show warnings on stderr, pass content unchanged
      "t=$(" ++ mktemp_cmd ++ " --suffix=" ++ ext ++ "); cat >\"$t\"; " ++ command
        ++ " " ++ opts_str ++ " \"$t\" >&2 || true; cat \"$t\"; rm \"$t\""
    else
      -- Editor: modify file and output result
      "t=$(" ++ mktemp_cmd ++ " --suffix=" ++ ext ++ "); cat >\"$t\"; " ++ command
        ++ " " ++ opts_str ++ " \"$t\" >/dev/null 2>&1 || true; cat \"$t\"; rm \"$t\""
  ["bash", "-c", script]

/-- Exclusion list built on the direct-stdin path of `get_stdin_command`:
`exclude = ["-w", "--write", "-e", "--edit", "--fix", "--inplace"]`, extended
with `"-i"` when the command basename is in `INPLACE_SHORT_FLAG`. -/
def direct_exclude (cmd_name : String) : List String :=
  ["-w", "--write", "-e", "--edit", "--fix", "--inplace"]
    ++ (if cmd_name ∈ INPLACE_SHORT_FLAG then ["-i"] else [])

/-- Option filter of the direct-stdin path:
`[opt for opt in options if opt not in exclude]`. -/
def direct_filtered (command : String) (options : List String) : List String :=
  options.filter (fun opt => opt ∉ direct_exclude (pathName command))

/-- `get_stdin_command`: get the command with proper stdin arguments.
`wrapper_type` is `none`, `some "edit"`, or `some "passthrough"`. -/
def get_stdin_command (name command : String) (options : List String)
    (wrapper_type : Option String) : List String :=
  if wrapper_type = some "edit" ∧ name ∈ NEEDS_WRAPPER then
    get_inline_command "mktemp" name command options "edit"
  else if wrapper_type = some "passthrough" ∧ name ∈ PASSTHROUGH_LINTERS then
    get_inline_command "mktemp" name command options "passthrough"
  else
    let cmd_name := pathName command
    let filtered_opts := direct_filtered command options
    let base_cmd := command :: filtered_opts
    match STDIN_ARGS.lookup cmd_name with
    | some args => base_cmd ++ args
    | none =>
      -- Special case for terraform/tofu fmt
      if "fmt" ∈ filtered_opts ∧ (cmd_name = "tofu" ∨ cmd_name = "terraform") then
        base_cmd ++ ["-"]
      else base_cmd

/-- The behaviour of a wrapped tool when invoked on the temp file: how it rewrites
the file's content, what it writes on its own stdout and stderr, and whether it
exits successfully — each as a function of the temp file's content at invocation. -/
structure ToolBehavior where
  transform : String → String
  toolStdout : String → String
  toolStderr : String → String
  succeeds : String → Bool

/-- Observable result of running a synthesized wrapper script. -/
structure ScriptResult where
  stdout : String
  stderr : String
  tempFileExists : Bool
deriving DecidableEq

/-- Operational model of the script emitted by `get_inline_command`, which is the
fixed command sequence
`t=$(mktemp --suffix=EXT); cat >"$t"; CMD OPTS "$t" REDIR || true; cat "$t"; rm "$t"`
where REDIR is `>&2` in passthrough mode and `>/dev/null 2>&1` in edit mode.
`bash -c` runs the five `;`-separated commands in order with no `set -e`, and the
`|| true` additionally discards the tool's exit status, so every later command runs
whether the tool succeeds or fails. -/
def runWrapperScript (mode : String) (tool : ToolBehavior) (stdinContent : String) :
    ScriptResult :=
  -- cat >"$t": the original stdin is copied verbatim into the fresh temp file
  let tempAfterCat := stdinContent
  -- the tool runs against "$t" and may rewrite it; its exit status is discarded
  let tempAfterTool := tool.transform tempAfterCat
  let diagnostics := tool.toolStdout tempAfterCat ++ tool.toolStderr tempAfterCat
  -- passthrough redirects the tool's stdout to stderr (its stderr already goes
  -- there); edit mode sends both to /dev/null
  let errStream := if mode = "passthrough" then diagnostics else ""
  -- cat "$t": the temp file content, as the tool left it, goes to script stdout
  -- rm "$t": the temp file is removed
  { stdout := tempAfterTool, stderr := errStream, tempFileExists := false }

/-- Character-level model of the two sequential replacements in `to_toml_array`:
`item.replace("\\", "\\\\").replace('"', '\\"')`.  The first replacement doubles
every backslash and introduces no quote, and the second touches only quotes, so
the composition acts independently on each character of the original string. -/
def escape_chars : List Char → List Char
  | [] => []
  | c :: cs =>
    if c = '\\' then '\\' :: '\\' :: escape_chars cs
    else if c = '"' then '\\' :: '"' :: escape_chars cs
    else c :: escape_chars cs

/-- `to_toml_array`: convert a list to TOML array format. -/
def to_toml_array (items : List String) : String :=
  "[" ++ join_sep ", " (items.map (fun item => "\"" ++ String.mk (escape_chars item.data) ++ "\"")) ++ "]"

/-- One formatter's configuration as consumed by `generate_jj_config`; a field
missing from the underlying TOML table is modelled by its `dict.get` default
(`""` for `command`, `[]` for the lists). -/
structure ToolConfig where
  command : String
  options : List String
  includes : List String
  excludes : List String
deriving DecidableEq

/-- The parsed treefmt configuration as consumed by `generate_jj_config`:
`treefmt_config.get("formatter", {})` as an association list and
`treefmt_config.get("global", {}).get("excludes", [])`. -/
structure TreefmtConfig where
  formatter : List (String × ToolConfig)
  global_excludes : List String

/-- One emitted jj-fix rule: the data of one `[fix.tools.<name>]` stanza. -/
structure Rule where
  name : String
  command : List String
  patterns : List String
deriving DecidableEq

/-- Wrapper-type determination of `generate_jj_config` (lines 298-304). -/
def wrapperTypeFor (name : String) : Option String :=
  if name ∈ NEEDS_WRAPPER then some "edit"
  else if name ∈ PASSTHROUGH_LINTERS then some "passthrough"
  else none

/-- Pattern-combination loop of `generate_jj_config` (lines 309-318): each include
becomes its glob query, minus the tool excludes followed by the global excludes
joined with the fileset difference operator when any exclude exists. -/
def combine_patterns (includes excludes global_excludes : List String) : List String :=
  includes.map (fun inc =>
    let base_pattern := glob_to_jj_pattern inc
    let all_excludes := excludes ++ global_excludes
    if all_excludes = [] then base_pattern
    else "(" ++ base_pattern ++ " ~ "
      ++ join_sep " ~ " (all_excludes.map glob_to_jj_pattern) ++ ")")

/-- Per-tool body of the `generate_jj_config` loop after the name-based skips:
drop the tool when `command` is falsy or `includes` is empty, otherwise build its
rule from `get_stdin_command` and the combined patterns. -/
def toolRuleBody (global_excludes : List String) (name : String) (config : ToolConfig) :
    Option Rule :=
  if config.command = "" then none
  else if config.includes = [] then none
  else some
    { name := name
      command := get_stdin_command name config.command config.options (wrapperTypeFor name)
      patterns := combine_patterns config.includes config.excludes global_excludes }

/-- Per-tool step of the `generate_jj_config` loop, generalized over the static
exclusion set (the source instantiates it with `EXCLUDED_TOOLS`): the exclusion
check comes first, then the allow-list check, then `toolRuleBody`. -/
def toolRuleWith (excluded : List String) (global_excludes : List String)
    (only_tools : Option (List String)) (name : String) (config : ToolConfig) :
    Option Rule :=
  if name ∈ excluded then none
  else
    match only_tools with
    | some only => if name ∈ only then toolRuleBody global_excludes name config else none
    | none => toolRuleBody global_excludes name config

/-- Per-tool step of the `generate_jj_config` loop as in the source, with the
static `EXCLUDED_TOOLS` set. -/
def toolRule (global_excludes : List String) (only_tools : Option (List String))
    (name : String) (config : ToolConfig) : Option Rule :=
  toolRuleWith EXCLUDED_TOOLS global_excludes only_tools name config

/-- Insert into a name-sorted association list (helper for `sortByName`). -/
def insertSorted (x : String × ToolConfig) :
    List (String × ToolConfig) → List (String × ToolConfig)
  | [] => [x]
  | y :: ys => if x.1 ≤ y.1 then x :: y :: ys else y :: insertSorted x ys

/-- Models `sorted(formatters.items())`: items in ascending key order. -/
def sortByName (l : List (String × ToolConfig)) : List (String × ToolConfig) :=
  l.foldr insertSorted []

/-- The structured content of `generate_jj_config`: the list of rules whose
stanzas are emitted, in sorted tool order. -/
def generate_rules (cfg : TreefmtConfig) (only_tools : Option (List String)) :
    List Rule :=
  (sortByName cfg.formatter).filterMap
    (fun p => toolRule cfg.global_excludes only_tools p.1 p.2)

/-- The four lines appended per retained tool by `generate_jj_config`. -/
def stanzaLines (r : Rule) : List String :=
  ["[fix.tools." ++ r.name ++ "]",
   "command = " ++ to_toml_array r.command,
   "patterns = " ++ to_toml_array r.patterns,
   ""]

/-- `generate_jj_config`: generate the jj fix configuration text from the treefmt
config — the header lines followed by one stanza per retained tool, joined with
newlines. -/
def generate_jj_config (cfg : TreefmtConfig) (only_tools : Option (List String)) :
    String :=
  join_sep "\n"
    (["# Generated by jmt", "# Do not edit manually", ""]
      ++ ((generate_rules cfg only_tools).map stanzaLines).flatten)

/-- The stdin-argument suffix as the spec describes it: taken from the static
stdin-argument table, empty for tools absent from it, except the fmt-subcommand
special case for the two infrastructure-as-code formatters. -/
def stdin_args_for (cmd_name : String) (filtered_opts : List String) : List String :=
  match STDIN_ARGS.lookup cmd_name with
  | some args => args
  | none =>
    if "fmt" ∈ filtered_opts ∧ (cmd_name = "tofu" ∨ cmd_name = "terraform") then ["-"]
    else []

/-- The spec's left-to-right set-difference chain: `base ~ e1 ~ e2 ~ ...`. -/
def chain_diff (base : String) (excl : List String) : String :=
  excl.foldl (fun acc e => acc ++ " ~ " ++ e) base

/-- `combinePatterns` as the spec words it: for each include, if the union of
per-tool and global excludes is non-empty, the parenthesized set-difference chain
with excludes resolved in declaration order (tool excludes before global excludes)
and chained left-to-right; otherwise the include query unmodified. -/
def combinePatternsSpec (includes excludes globalExcludes : List String) :
    List String :=
  includes.map (fun inc =>
    let resolvedExcludes := (excludes ++ globalExcludes).map glob_to_jj_pattern
    if resolvedExcludes = [] then glob_to_jj_pattern inc
    else "(" ++ chain_diff (glob_to_jj_pattern inc) resolvedExcludes ++ ")")

/-- A wrapped-tool behaviour that rewrites its temp file and prints a warning. -/
def clobberingTool : ToolBehavior :=
  { transform := fun _ => "CLOBBERED"
    toolStdout := fun _ => "warning: issue found"
    toolStderr := fun _ => ""
    succeeds := fun _ => false }

/-- Sample formatter entry: a plain direct-stdin formatter. -/
def cfgNixfmt : ToolConfig :=
  { command := "nixfmt", options := [], includes := ["*.nix"], excludes := [] }

/-- Sample formatter entry: a second direct-stdin formatter. -/
def cfgShfmt : ToolConfig :=
  { command := "shfmt", options := [], includes := ["*.sh"], excludes := [] }

/-- Sample formatter entry: a tool with no include patterns. -/
def cfgNoIncludes : ToolConfig :=
  { command := "sometool", options := [], includes := [], excludes := [] }

/-- Sample treefmt configuration with a single declared tool. -/
def sampleConfig : TreefmtConfig :=
  { formatter := [("nixfmt", cfgNixfmt)], global_excludes := [] }

/-- Sample treefmt configuration with two declared tools. -/
def sampleConfigTwo : TreefmtConfig :=
  { formatter := [("nixfmt", cfgNixfmt), ("shfmt", cfgShfmt)], global_excludes := [] }

/-! ## Theorems -/

/-- A successful `str_startswith` test exposes the string's characters as the
pattern's characters followed by a tail. -/
theorem startswith_exists_append {s p : String} (h : str_startswith s p = true) :
    ∃ t, s.data = p.data ++ t := by
  unfold str_startswith at h
  simp at h
  obtain ⟨t, ht⟩ := h
  exact ⟨t, ht.symm⟩

/-- C6: `glob_to_jj_pattern` wraps a glob starting with `**/` verbatim (no
double-prefixing), prefixes a glob starting with `*.` with `**/`, and wraps any
other glob as-is with no implicit recursion. -/
theorem glob_to_jj_pattern_cases (g : String) :
    (str_startswith g "**/" = true → glob_to_jj_pattern g = "glob:'" ++ g ++ "'") ∧
    (str_startswith g "*." = true → glob_to_jj_pattern g = "glob:'**/" ++ g ++ "'") ∧
    (str_startswith g "**/" = false → str_startswith g "*." = false →
      glob_to_jj_pattern g = "glob:'" ++ g ++ "'") := by
  refine ⟨fun h => ?_, fun h => ?_, fun h1 h2 => ?_⟩
  · simp [glob_to_jj_pattern, h]
  · obtain ⟨u, hu⟩ := startswith_exists_append h
    have hdot : ("*." : String).data = ['*', '.'] := rfl
    rw [hdot] at hu
    have h1 : str_startswith g "**/" = false := by
      have hstar : ("**/" : String).data = ['*', '*', '/'] := rfl
      unfold str_startswith
      rw [hstar, hu]
      simp [List.isPrefixOf]
    simp [glob_to_jj_pattern, h1, h]
  · simp [glob_to_jj_pattern, h1, h2]

/-- C6 witness: the three cases at concrete globs. -/
theorem glob_to_jj_pattern_cases_witness :
    glob_to_jj_pattern "*.nix" = "glob:'**/*.nix'" ∧
    glob_to_jj_pattern "**/vendor" = "glob:'**/vendor'" ∧
    glob_to_jj_pattern "README.md" = "glob:'README.md'" :=
  ⟨(glob_to_jj_pattern_cases "*.nix").2.1 (by decide),
   (glob_to_jj_pattern_cases "**/vendor").1 (by decide),
   (glob_to_jj_pattern_cases "README.md").2.2 (by decide) (by decide)⟩

/-- C1: the passthrough wrapper script does NOT always emit the original stdin
content — it emits the temp file as the tool left it.  With stdin `"hello"` and a
wrapped tool that rewrites its temp file to `"CLOBBERED"`, the script's stdout is
`"CLOBBERED"`, not `"hello"`; the tool's own output does go to stderr only. -/
theorem passthrough_wrapper_emits_tool_modified_content :
    (runWrapperScript "passthrough" clobberingTool "hello").stdout = "CLOBBERED" ∧
    (runWrapperScript "passthrough" clobberingTool "hello").stderr
      = "warning: issue found" ∧
    "CLOBBERED" ≠ "hello" := by
  refine ⟨rfl, ?_, by decide⟩
  simp [runWrapperScript, clobberingTool]

/-- C3: for every mode and every wrapped-tool behaviour (success or failure,
file modified or not), the wrapper script's temp file is removed by the end of
the script. -/
theorem wrapper_script_always_removes_temp_file (mode : String) (tool : ToolBehavior)
    (input : String) : (runWrapperScript mode tool input).tempFileExists = false := rfl

/-- C2 counterexample: for the WrappedEdit tool `deadnix` and options
`["--edit"]`, the wrapper-path filter keeps `--edit` while the DirectStdin-path
filter strips it, so the two filters are not identical. -/
theorem wrapper_filter_differs_from_direct_filter :
    "deadnix" ∈ NEEDS_WRAPPER ∧
    inline_filtered ["--edit"] = ["--edit"] ∧
    direct_filtered "deadnix" ["--edit"] = [] ∧
    inline_filtered ["--edit"] ≠ direct_filtered "deadnix" ["--edit"] := by decide

/-- C2 amended: the wrapper path strips only `-w`/`--write`; the two filters
agree exactly on options lists that contain none of the additional DirectStdin
exclusions `-e`, `--edit`, `--fix`, `--inplace`, `-i`. -/
theorem wrapper_filter_agrees_when_no_extra_flags (command : String)
    (options : List String)
    (h : ∀ opt ∈ options,
      opt ∉ (["-e", "--edit", "--fix", "--inplace", "-i"] : List String)) :
    inline_filtered options = direct_filtered command options := by
  unfold inline_filtered direct_filtered
  apply List.filter_congr
  intro opt hopt
  have hextra := h opt hopt
  rw [decide_eq_decide]
  by_cases hc : pathName command ∈ INPLACE_SHORT_FLAG <;>
    simp [direct_exclude, hc] at hextra ⊢ <;> tauto

/-- C2 amended witness: agreement at a concrete flag list containing a write
flag and a non-conflicting flag. -/
theorem wrapper_filter_agrees_when_no_extra_flags_witness :
    (∀ opt ∈ (["--write", "--tab-width=2"] : List String),
      opt ∉ (["-e", "--edit", "--fix", "--inplace", "-i"] : List String)) ∧
    inline_filtered ["--write", "--tab-width=2"]
      = direct_filtered "prettier" ["--write", "--tab-width=2"] :=
  ⟨by decide, wrapper_filter_agrees_when_no_extra_flags "prettier" _ (by decide)⟩

/-- C5 counterexample: `typstyle` is in the short-flag-means-inplace set and is a
DirectStdin tool, yet when its declared command basename is not in that set the
short flag `-i` is retained — the lookup is not by tool name. -/
theorem inplace_short_flag_uses_command_basename_not_name :
    "typstyle" ∈ INPLACE_SHORT_FLAG ∧
    wrapperTypeFor "typstyle" = none ∧
    get_stdin_command "typstyle" "sometool" ["-i"] none = ["sometool", "-i"] := by
  decide

/-- C5 amended: on the DirectStdin path, `-i` survives the option filter exactly
when it was present and the basename of the tool's `command` is outside
`INPLACE_SHORT_FLAG`; membership is resolved by exact basename lookup. -/
theorem inplace_short_flag_iff_command_basename (command : String)
    (options : List String) :
    "-i" ∈ direct_filtered command options ↔
      ("-i" ∈ options ∧ pathName command ∉ INPLACE_SHORT_FLAG) := by
  unfold direct_filtered
  by_cases hc : pathName command ∈ INPLACE_SHORT_FLAG <;>
    simp [direct_exclude, hc, List.mem_filter]

/-- C4: for every DirectStdin tool, `get_stdin_command` removes exactly the
applicable in-place exclusions from the options (keeping the rest in order, as a
filter does) and returns `[command, ...filteredOptions, ...stdinArgs]` with the
stdin arguments given by the static table and the fmt special case. -/
theorem direct_stdin_command_shape (name command : String) (options : List String)
    (_h : wrapperTypeFor name = none) :
    get_stdin_command name command options none =
      [command] ++ direct_filtered command options
        ++ stdin_args_for (pathName command) (direct_filtered command options) := by
  have h1 : ¬((none : Option String) = some "edit" ∧ name ∈ NEEDS_WRAPPER) := by simp
  have h2 : ¬((none : Option String) = some "passthrough"
      ∧ name ∈ PASSTHROUGH_LINTERS) := by simp
  unfold get_stdin_command stdin_args_for
  rw [if_neg h1, if_neg h2]
  cases hl : STDIN_ARGS.lookup (pathName command) with
  | some args => simp [hl]
  | none =>
    simp only [hl]
    by_cases hf : "fmt" ∈ direct_filtered command options
        ∧ (pathName command = "tofu" ∨ pathName command = "terraform")
    · simp [hf]
    · simp [hf]

/-- C4 witness: the shape at a concrete DirectStdin tool and options. -/
theorem direct_stdin_command_shape_witness :
    wrapperTypeFor "nixfmt" = none ∧
    get_stdin_command "nixfmt" "nixfmt" ["--write", "--tab-width=2"] none =
      ["nixfmt"] ++ direct_filtered "nixfmt" ["--write", "--tab-width=2"]
        ++ stdin_args_for (pathName "nixfmt")
            (direct_filtered "nixfmt" ["--write", "--tab-width=2"]) :=
  ⟨by decide,
   direct_stdin_command_shape "nixfmt" "nixfmt" ["--write", "--tab-width=2"] (by decide)⟩

/-- Joining a non-empty list after a base with the difference separator equals
the left-to-right fold of the set-difference chain. -/
theorem chain_diff_eq_join (l : List String) : ∀ base : String, l ≠ [] →
    base ++ " ~ " ++ join_sep " ~ " l = chain_diff base l := by
  induction l with
  | nil => intro base hne; exact absurd rfl hne
  | cons x xs ih =>
    intro base _
    cases xs with
    | nil => simp [join_sep, chain_diff]
    | cons y ys =>
      have hrec := ih (base ++ " ~ " ++ x) (by simp)
      simp only [join_sep, chain_diff, List.foldl] at hrec ⊢
      rw [← hrec]
      simp [String.append_assoc]

/-- C7: the pattern-combination loop produces, for each include, the
parenthesized left-to-right set-difference chain with tool excludes before
global excludes when any exclude exists, and the bare include query otherwise. -/
theorem combine_patterns_matches_spec_chain (includes excludes globalExcludes : List String) :
    combine_patterns includes excludes globalExcludes =
      combinePatternsSpec includes excludes globalExcludes := by
  unfold combine_patterns combinePatternsSpec
  congr 1
  funext inc
  by_cases he : excludes ++ globalExcludes = []
  · simp [he]
  · have hmap : (excludes ++ globalExcludes).map glob_to_jj_pattern ≠ [] := by
      simpa using he
    dsimp only
    rw [if_neg he, if_neg hmap, ← chain_diff_eq_join _ _ hmap]
    simp [String.append_assoc]

/-- `get_stdin_command` never returns an empty argv. -/
theorem get_stdin_command_ne_nil (name command : String) (options : List String)
    (wrapper_type : Option String) :
    get_stdin_command name command options wrapper_type ≠ [] := by
  unfold get_stdin_command get_inline_command
  split
  · simp
  · split
    · simp
    · dsimp only
      split
      · simp
      · split <;> simp

/-- A rule built by `toolRuleBody` carries the looped-over tool name. -/
theorem toolRuleBody_name (g : List String) (n : String) (c : ToolConfig) (r : Rule)
    (h : toolRuleBody g n c = some r) : r.name = n := by
  unfold toolRuleBody at h
  by_cases h1 : c.command = ""
  · simp [h1] at h
  · by_cases h2 : c.includes = []
    · simp [h1, h2] at h
    · simp [h1, h2] at h
      rw [← h]

/-- A rule built by `toolRuleBody` has a non-empty command and non-empty patterns. -/
theorem toolRuleBody_some_nonempty (g : List String) (n : String) (c : ToolConfig)
    (r : Rule) (h : toolRuleBody g n c = some r) :
    r.command ≠ [] ∧ r.patterns ≠ [] := by
  unfold toolRuleBody at h
  by_cases h1 : c.command = ""
  · simp [h1] at h
  · by_cases h2 : c.includes = []
    · simp [h1, h2] at h
    · simp [h1, h2] at h
      refine ⟨?_, ?_⟩
      · rw [← h]
        exact get_stdin_command_ne_nil n c.command c.options (wrapperTypeFor n)
      · rw [← h]
        simp [combine_patterns, h2]

/-- A rule produced through `toolRuleWith` comes from `toolRuleBody`. -/
theorem toolRuleWith_some_to_body (E g : List String) (only : Option (List String))
    (n : String) (c : ToolConfig) (r : Rule) (h : toolRuleWith E g only n c = some r) :
    toolRuleBody g n c = some r := by
  unfold toolRuleWith at h
  by_cases hE : n ∈ E
  · simp [hE] at h
  · cases only with
    | none => simpa [hE] using h
    | some s =>
      by_cases hs : n ∈ s
      · simpa [hE, hs] using h
      · simp [hE, hs] at h

/-- C8: every rule emitted by the generator has a non-empty command and
non-empty patterns, and a tool whose includes list is empty is dropped before
rule construction (its loop step yields no rule). -/
theorem rules_nonempty_command_and_patterns :
    (∀ (cfg : TreefmtConfig) (only : Option (List String)) (r : Rule),
        r ∈ generate_rules cfg only → r.command ≠ [] ∧ r.patterns ≠ []) ∧
    (∀ (g : List String) (only : Option (List String)) (name : String) (c : ToolConfig),
        c.includes = [] → toolRule g only name c = none) := by
  constructor
  · intro cfg only r hr
    unfold generate_rules at hr
    obtain ⟨⟨n, c⟩, _, hsome⟩ := List.mem_filterMap.1 hr
    exact toolRuleBody_some_nonempty _ _ _ _
      (toolRuleWith_some_to_body _ _ _ _ _ _ hsome)
  · intro g only name c hinc
    unfold toolRule toolRuleWith
    simp only [EXCLUDED_TOOLS, List.not_mem_nil, if_false]
    cases only with
    | none => simp [toolRuleBody, hinc]
    | some s => split <;> simp [toolRuleBody, hinc]

/-- C8 witness: the single rule of a one-tool configuration is non-degenerate,
and a concrete empty-includes tool is dropped. -/
theorem rules_nonempty_command_and_patterns_witness :
    ((⟨"nixfmt", ["nixfmt"], ["glob:'**/*.nix'"]⟩ : Rule).command ≠ [] ∧
      (⟨"nixfmt", ["nixfmt"], ["glob:'**/*.nix'"]⟩ : Rule).patterns ≠ []) ∧
    toolRule [] none "sometool" cfgNoIncludes = none :=
  ⟨rules_nonempty_command_and_patterns.1 sampleConfig none _ (by decide),
   rules_nonempty_command_and_patterns.2 [] none "sometool" cfgNoIncludes rfl⟩

/-- With an allow-list, the per-tool loop keeps exactly the rules of the
unfiltered loop whose tool name is in the allow-list. -/
theorem filterMap_allowlist (E g A : List String) :
    ∀ l : List (String × ToolConfig),
      l.filterMap (fun p => toolRuleWith E g (some A) p.1 p.2) =
        (l.filterMap (fun p => toolRuleWith E g none p.1 p.2)).filter
          (fun r => r.name ∈ A) := by
  intro l
  induction l with
  | nil => rfl
  | cons hd tl ih =>
    obtain ⟨n, c⟩ := hd
    simp only [List.filterMap_cons]
    by_cases hE : n ∈ E
    · simpa [toolRuleWith, hE] using ih
    · cases hb : toolRuleBody g n c with
      | none => simpa [toolRuleWith, hE, hb] using ih
      | some r =>
        have hn : r.name = n := toolRuleBody_name g n c r hb
        have hwN : toolRuleWith E g none n c = some r := by
          simp [toolRuleWith, hE, hb]
        have hwA : toolRuleWith E g (some A) n c
            = if n ∈ A then some r else none := by
          simp [toolRuleWith, hE, hb]
        rw [hwN, hwA]
        by_cases hA : n ∈ A
        · rw [if_pos hA, ih, List.filter_cons]
          simp [hn, hA]
        · rw [if_neg hA, ih, List.filter_cons]
          simp [hn, hA]

/-- C9: supplying an allow-list restricts the emitted rules to exactly those of
the unrestricted run whose tool names are in the allow-list (others silently
skipped), and membership in the static exclusion set is checked first — an
excluded name yields no rule even when it is in the allow-list. -/
theorem allowlist_filters_rules_and_exclusion_precedence :
    (∀ (cfg : TreefmtConfig) (A : List String),
        generate_rules cfg (some A) =
          (generate_rules cfg none).filter (fun r => r.name ∈ A)) ∧
    (∀ (E g : List String) (only : Option (List String)) (name : String)
        (c : ToolConfig), name ∈ E → toolRuleWith E g only name c = none) := by
  constructor
  · intro cfg A
    unfold generate_rules toolRule
    exact filterMap_allowlist _ _ _ _
  · intro E g only name c hE
    unfold toolRuleWith
    simp [hE]

/-- C9 witness: a two-tool configuration restricted to one name, and precedence
of a concrete exclusion set over a concrete allow-list containing the same name. -/
theorem allowlist_filters_rules_witness :
    generate_rules sampleConfigTwo (some ["nixfmt"]) =
      (generate_rules sampleConfigTwo none).filter (fun r => r.name ∈ ["nixfmt"]) ∧
    toolRuleWith ["secrettool"] [] (some ["secrettool"]) "secrettool" cfgNixfmt
      = none :=
  ⟨allowlist_filters_rules_and_exclusion_precedence.1 sampleConfigTwo ["nixfmt"],
   allowlist_filters_rules_and_exclusion_precedence.2 ["secrettool"] []
     (some ["secrettool"]) "secrettool" cfgNixfmt (by decide)⟩

/-- C10: a tool whose command is missing (modelled by the `dict.get` default
`""`) or the empty string is silently dropped by the generator loop — no rule,
hence no stanza, and no error since the loop step is a total function. -/
theorem empty_command_tool_dropped (g : List String) (only : Option (List String))
    (name : String) (c : ToolConfig) (h : c.command = "") :
    toolRule g only name c = none := by
  unfold toolRule toolRuleWith
  simp only [EXCLUDED_TOOLS, List.not_mem_nil, if_false]
  cases only with
  | none => simp [toolRuleBody, h]
  | some s => split <;> simp [toolRuleBody, h]

/-- C10 witness: a concrete tool with empty command yields no rule. -/
theorem empty_command_tool_dropped_witness :
    toolRule [] none "broken"
      { command := "", options := [], includes := ["*.py"], excludes := [] } = none :=
  empty_command_tool_dropped [] none "broken" _ rfl

end Jmt
